import Mathlib

/-!
Shallow embedding of the markdown-to-HTML converter in `src/parseclass.js`.

Strings are modelled as `List Char`.  Each definition below embeds the JS
function of the same name (or the named statement block of `parseMarkdown`):

* `escapeHTMLChars`, `wrapWithTag`, `isEmpty` — the sanitizer helpers.
  JS `String.prototype.replace` with a *string* pattern replaces only the
  first occurrence; `jsReplaceFirst` models exactly that.
* `getBlockInfo` with the matcher table order of `BLOCK_MATCHERS`
  (code fence, ATX heading, setext heading, blockquote; `break` for
  whitespace-only lines, `plaintext` as the fallback).
* `blockParse` — the `BLOCK.*.parse` handlers.
* `processLine` — one iteration of the main `while` loop of `parseMarkdown`;
  `runLoop` iterates it (fuel-indexed structural recursion; the fuel
  `raw_lines.length` is sufficient because every iteration advances the line
  index by exactly one, which is proved below as `processLine_k`).
* `pWrapFrag`, `applyInlineRule`, `transformFrag` — the second pass
  (paragraph wrapping and the four `INLINE` emphasis rules).
* `parseMarkdown` — the whole entry point.  A JS caller can pass a
  non-string value; that case is modelled by the `none` input.

The JS inline matchers are regexes of the shape
`(?<!\\)D{n}(.+?)(?<!\\)D{n}` applied with `matchAll`.  `findAll` models the
backtracking regex engine: scan start positions left to right, at each start
require the negative lookbehind (previous character not a backslash), the
opening delimiter run, then the shortest nonempty run of non-line-terminator
characters whose last character is not a backslash followed by the closing
delimiter run; after a match the scan resumes at its end.
-/

/-- Whitespace as used by JS `trim`/`\s` (ASCII part; the inputs that the
claims mention are ASCII). -/
def wsChar (c : Char) : Bool :=
  c == ' ' || c == '\t' || c == '\n' || c == '\r' || c == '\x0b' || c == '\x0c'

/-- JS `str.trim()`. -/
def trim (s : List Char) : List Char :=
  (((s.dropWhile wsChar).reverse).dropWhile wsChar).reverse

/-- JS `str.trimEnd()`. -/
def trimEnd (s : List Char) : List Char :=
  ((s.reverse).dropWhile wsChar).reverse

/-- JS helper `isEmpty` from the source: `str.trim().length == 0`. -/
def isEmpty (s : List Char) : Bool :=
  (trim s).length == 0

/-- JS `str.replace(pat, repl)` with a string pattern: replaces only the
first occurrence of `pat` (the whole string is returned unchanged when `pat`
does not occur). -/
def jsReplaceFirst (s pat repl : List Char) : List Char :=
  match s with
  | [] => if pat = [] then repl else []
  | c :: rest =>
    if pat.isPrefixOf (c :: rest) then repl ++ (c :: rest).drop pat.length
    else c :: jsReplaceFirst rest pat repl

/-- Number of (possibly overlapping) occurrences of `pat` in `s`; used only
to state tag-balance facts about concrete outputs. -/
def countOcc (pat : List Char) : List Char → Nat
  | [] => 0
  | c :: rest => (if pat.isPrefixOf (c :: rest) then 1 else 0) + countOcc pat rest

/-- JS `str.repeat(n)` for a `List Char` string. -/
def repeatL (s : List Char) (n : Nat) : List Char :=
  (List.replicate n s).flatten

/-- The backtick character (code point 96). -/
def backtick : Char := '\x60'

/-- JS `raw_markdown.split(/\r?\n/)`. -/
def splitLines : List Char → List (List Char)
  | [] => [[]]
  | '\r' :: '\n' :: rest => [] :: splitLines rest
  | '\n' :: rest => [] :: splitLines rest
  | c :: rest =>
    match splitLines rest with
    | [] => [[c]]
    | l :: ls => (c :: l) :: ls

/-- JS `escapeHTMLChars`: `text.replace('&', '&amp;')`, then the
`SANITIZE_REPLACEMENTS` table in key order `'<'`, `'>'`.  Each `replace`
call uses a string pattern, hence touches only the first occurrence. -/
def escapeHTMLChars (text : List Char) : List Char :=
  jsReplaceFirst
    (jsReplaceFirst (jsReplaceFirst text ['&'] (("&amp;").data))
      ['<'] (("&lt;").data))
    ['>'] (("&gt;").data)

/-- JS `wrapWithTag`: `'<' + tag + '>' + escapeHTMLChars(text) + '</' + tag + '>'`. -/
def wrapWithTag (tag text : List Char) : List Char :=
  '<' :: (tag ++ '>' :: (escapeHTMLChars text ++ '<' :: '/' :: (tag ++ ['>'])))

/-- The closed enum of block classes in the `BLOCK` table.  (`breakLine` is
the table key `break`, which is a reserved word in Lean.) -/
inductive BlockType where
  | blockquote
  | code_container_marker
  | breakLine
  | atx_heading
  | setext_heading
  | plaintext
deriving DecidableEq

/-- The matcher `/```/g` of `BLOCK_MATCHERS`: a bare triple backtick
anywhere in the string. -/
def hasTripleBacktick : List Char → Bool
  | a :: b :: c :: rest =>
    (a == backtick && b == backtick && c == backtick) || hasTripleBacktick (b :: c :: rest)
  | _ => false

/-- The matcher `/(^=+\s*$)|(^-+\s*$)/g`: the whole string is a nonempty run
of `=` (or of `-`) followed only by whitespace. -/
def setextUnderline (sub : List Char) : Bool :=
  (let eqs := sub.takeWhile (fun c => c == '=')
   !eqs.isEmpty && (sub.drop eqs.length).all wsChar) ||
  (let ds := sub.takeWhile (fun c => c == '-')
   !ds.isEmpty && (sub.drop ds.length).all wsChar)

/-- JS `getBlockInfo(line, start_pos)`: classify `line.substring(start_pos)`
against `BLOCK_MATCHERS` in order, returning the block class together with
`matched[0]` (the empty string stands for the JS placeholder `0` returned
for `break` and `plaintext`, whose handlers ignore it).

* whitespace-only substring → `break`;
* `/```/g` → `code_container_marker`, match text is the three backticks;
* `/^\s*#{1,6}/g` → `atx_heading`, match is the leading whitespace plus at
  most six `#` characters;
* `/(^=+\s*$)|(^-+\s*$)/g` → `setext_heading`, match is the whole substring;
* `/^(>+\s*)/g` → `blockquote`, match is the `>` run plus trailing
  whitespace;
* otherwise `plaintext`. -/
def getBlockInfo (line : List Char) (start_pos : Nat) : BlockType × List Char :=
  let sub := line.drop start_pos
  if isEmpty sub then (BlockType.breakLine, [])
  else if hasTripleBacktick sub then
    (BlockType.code_container_marker, [backtick, backtick, backtick])
  else
    let hashes := (sub.dropWhile wsChar).takeWhile (fun c => c == '#')
    if !hashes.isEmpty then
      (BlockType.atx_heading, (sub.takeWhile wsChar) ++ hashes.take 6)
    else if setextUnderline sub then (BlockType.setext_heading, sub)
    else
      let gts := sub.takeWhile (fun c => c == '>')
      if !gts.isEmpty then
        (BlockType.blockquote, gts ++ ((sub.drop gts.length).takeWhile wsChar))
      else (BlockType.plaintext, [])

/-- The parser state set up by `MarkdownParser.prototype.reset`.  (`listLevel`
and `listType` also exist in the JS state object but are never read by any
live code, so they are omitted.) -/
structure PState where
  blockquoteLevel : Nat
  insideCodeContainer : Bool
deriving DecidableEq

/-- `reset()`: `{ blockquoteLevel: 0, insideCodeContainer: false }`. -/
def initState : PState :=
  { blockquoteLevel := 0, insideCodeContainer := false }

/-- One element of `parsed_lines`, paired with its `not_a_paragraph` flag.
The JS code keys the flags by index in a side object; since fragments are
only ever appended or rewritten in place, carrying the flag on the fragment
is equivalent. -/
abbrev Frag := List Char × Bool

/-- `'h' + len` used by the ATX handler. -/
def hTag (n : Nat) : List Char :=
  'h' :: (Nat.repr n).data

/-- The tag chosen by the setext handler: `matched.indexOf('=') > -1 ? 'h1' : 'h2'`. -/
def setextTag (matched : List Char) : List Char :=
  if matched.contains '=' then ("h1").data else ("h2").data

/-- The in-place rewrite performed by `BLOCK.setext_heading.parse`:
`parsed_lines[parsed_lines.length-1] = wrapWithTag(tag, last)` when the list
is nonempty, nothing otherwise.  The `not_a_paragraph` flag of the rewritten
index is untouched. -/
def rewriteLast (tag : List Char) : List Frag → List Frag
  | [] => []
  | [f] => [(wrapWithTag tag f.1, f.2)]
  | f :: g :: rest => f :: rewriteLast tag (g :: rest)

/-- The `BLOCK.*.parse` handlers.  Each returns the possibly-rewritten
`parsed_lines` together with the JS return value: `some (text, index)` for
the handlers that return a 2-array, `none` for those that return
`undefined` (`blockquote`, `code_container_marker` — both handled inside
`parseMarkdown` — and `setext_heading`, which only rewrites). -/
def blockParse (bt : BlockType) (raw_lines : List (List Char)) (k : Nat)
    (line_start_pos : Nat) (parsed : List Frag) (matched : List Char) :
    List Frag × Option (List Char × Nat) :=
  match bt with
  | BlockType.breakLine => (parsed, some (("<br />").data, k))
  | BlockType.atx_heading =>
    (parsed,
     some (wrapWithTag (hTag (trim matched).length)
        (trim (jsReplaceFirst ((raw_lines.getD k []).drop line_start_pos) matched [])),
      k))
  | BlockType.setext_heading => (rewriteLast (setextTag matched) parsed, none)
  | BlockType.plaintext => (parsed, some ((raw_lines.getD k []).drop line_start_pos, k))
  | BlockType.blockquote => (parsed, none)
  | BlockType.code_container_marker => (parsed, none)

/-- The tail of a loop iteration: `const result = block_class.parse(...)`;
push `result[0]` when `result` is an array and advance `k` to
`result[1] + 1` whenever `result[1] >= k`, otherwise `k++`. -/
def dispatch (raw_lines : List (List Char)) (k : Nat) (line_start_pos : Nat)
    (bt : BlockType) (matched : List Char) (st : PState) (parsed : List Frag) :
    PState × List Frag × Nat :=
  match blockParse bt raw_lines k line_start_pos parsed matched with
  | (parsed2, some (txt, i)) => (st, parsed2 ++ [(txt, false)], if k ≤ i then i + 1 else k)
  | (parsed2, none) => (st, parsed2, k + 1)

/-- The `code_container_marker` branch of the loop: toggle
`insideCodeContainer`; on opening push `'<pre'` plus an optional
`class="lang-..."` attribute built from `line.substring(3)`, on closing push
`'</pre>'`; `k++`. -/
def fenceStep (st : PState) (parsed : List Frag) (line : List Char) (k : Nat) :
    PState × List Frag × Nat :=
  let inside := !st.insideCodeContainer
  let language := line.drop 3
  let frag :=
    if inside then
      ("<pre").data ++
        (if isEmpty language then (">").data
         else (" class=\"lang-").data ++ language ++ ("\">").data)
    else ("</pre>").data
  ({ st with insideCodeContainer := inside }, parsed ++ [(frag, false)], k + 1)

/-- One iteration of the main `while (k < raw_lines.length)` loop of
`parseMarkdown`:

1. `line = raw_lines[k].trimEnd()`, classified from offset 0;
2. fence-marker lines go to `fenceStep` and `continue`;
3. otherwise, while `insideCodeContainer`, push the raw line escaped plus a
   `'\n'` terminator, flagged `not_a_paragraph`, and `continue`;
4. a `blockquote` classification compares the trimmed matched prefix length
   with `blockquoteLevel`, pushes `depth_diff` open/close tags and updates
   the level when the difference is nonzero, then reclassifies the line past
   the matched prefix;
5. a non-blockquote line while `blockquoteLevel > 0` pushes
   `'</blockquote>'.repeat(blockquoteLevel)` (the JS code does not touch
   `blockquoteLevel` here);
6. finally the (re)classified block handler runs via `dispatch`. -/
def processLine (raw_lines : List (List Char)) (st : PState) (parsed : List Frag)
    (k : Nat) : PState × List Frag × Nat :=
  let rawLine := raw_lines.getD k []
  let line := trimEnd rawLine
  let cm := getBlockInfo line 0
  if cm.1 = BlockType.code_container_marker then
    fenceStep st parsed line k
  else if st.insideCodeContainer then
    (st, parsed ++ [(escapeHTMLChars rawLine ++ ['\n'], true)], k + 1)
  else if cm.1 = BlockType.blockquote then
    let newLevel := (trim cm.2).length
    let dd : Int := (newLevel : Int) - (st.blockquoteLevel : Int)
    let st1 := if dd = 0 then st else { st with blockquoteLevel := newLevel }
    let parsed1 :=
      if dd = 0 then parsed
      else parsed ++
        [(repeatL (if dd < 0 then ("</blockquote>").data else ("<blockquote>").data)
            dd.natAbs, false)]
    let cm2 := getBlockInfo line cm.2.length
    dispatch raw_lines k cm.2.length cm2.1 cm2.2 st1 parsed1
  else if st.blockquoteLevel > 0 then
    dispatch raw_lines k 0 cm.1 cm.2 st
      (parsed ++ [(repeatL (("</blockquote>").data) st.blockquoteLevel, false)])
  else
    dispatch raw_lines k 0 cm.1 cm.2 st parsed

/-- The main loop.  The fuel argument only bounds the number of iterations;
`parseMarkdown` passes `raw_lines.length`, which is exact because every
iteration advances `k` by one (`processLine_k` below). -/
def runLoop (lines : List (List Char)) : Nat → PState → List Frag → Nat →
    PState × List Frag
  | 0, st, parsed, _ => (st, parsed)
  | fuel + 1, st, parsed, k =>
    if k < lines.length then
      let r := processLine lines st parsed k
      runLoop lines fuel r.1 r.2.1 r.2.2
    else (st, parsed)

/-- One of the `INLINE` span rules: a delimiter character repeated `count`
times on each side, rewriting to `tag`. -/
structure InlineRule where
  delim : Char
  count : Nat
  tag : List Char

/-- The `INLINE` table in array (= application) order. -/
def INLINE : List InlineRule :=
  [ { delim := '*', count := 2, tag := ("strong").data },
    { delim := '_', count := 2, tag := ("strong").data },
    { delim := '*', count := 1, tag := ("em").data },
    { delim := '_', count := 1, tag := ("em").data } ]

/-- Match `n` copies of `c` at the head, returning the rest. -/
def takeDelim (c : Char) : Nat → List Char → Option (List Char)
  | 0, cs => some cs
  | _ + 1, [] => none
  | n + 1, d :: cs => if d == c then takeDelim c n cs else none

/-- JS regex `.`: any character except a line terminator. -/
def dotChar (c : Char) : Bool :=
  !(c == '\n' || c == '\r' || c == Char.ofNat 8232 || c == Char.ofNat 8233)

/-- The lazy group `(.+?)` followed by `(?<!\\)` and the closing delimiter:
`grpRev` is the reversed group consumed so far (nonempty).  Try to close at
the current position (which requires the group's last character not to be a
backslash); on failure extend the group by one `.`-matching character. -/
def lazyClose (c : Char) (n : Nat) (grpRev : List Char) :
    List Char → Option (List Char × List Char)
  | [] =>
    if grpRev.head? ≠ some '\\' then
      match takeDelim c n [] with
      | some rest => some (grpRev.reverse, rest)
      | none => none
    else none
  | d :: cs =>
    match (if grpRev.head? ≠ some '\\' then takeDelim c n (d :: cs) else none) with
    | some rest => some (grpRev.reverse, rest)
    | none => if dotChar d then lazyClose c n (d :: grpRev) cs else none

/-- Try the whole pattern `(?<!\\)c{n}(.+?)(?<!\\)c{n}` at the current
position; `prev` is the character just before it (for the opening
lookbehind).  Returns `(whole match, group, rest of the input)`. -/
def tryMatchAt (c : Char) (n : Nat) (prev : Option Char) (cs : List Char) :
    Option (List Char × List Char × List Char) :=
  if prev = some '\\' then none
  else
    match takeDelim c n cs with
    | none => none
    | some afterOpen =>
      match afterOpen with
      | [] => none
      | d :: cs2 =>
        if dotChar d then
          match lazyClose c n [d] cs2 with
          | some (grp, rest) =>
            some (List.replicate n c ++ (grp ++ List.replicate n c), grp, rest)
          | none => none
        else none

/-- Scan for all matches left to right, resuming after each match
(`String.prototype.matchAll` with a global regex).  The fuel is the length
of the remaining input; every step consumes at least one character. -/
def findAllAux (c : Char) (n : Nat) : Nat → Option Char → List Char →
    List (List Char × List Char)
  | 0, _, _ => []
  | fuel + 1, prev, cs =>
    match cs with
    | [] => []
    | d :: cs2 =>
      match tryMatchAt c n prev (d :: cs2) with
      | some (whole, grp, rest) => (whole, grp) :: findAllAux c n fuel whole.getLast? rest
      | none => findAllAux c n fuel (some d) cs2

/-- `[...str.matchAll(rule.matcher)]` as a list of `(match[0], match[1])`. -/
def findAll (c : Char) (n : Nat) (cs : List Char) : List (List Char × List Char) :=
  findAllAux c n cs.length none cs

/-- One `INLINE` rule applied to one fragment: collect all matches of the
rule's regex, then for each match replace its first textual occurrence with
`wrapWithTag(rule.tag, match[1])`. -/
def applyInlineRule (t : List Char) (r : InlineRule) : List Char :=
  (findAll r.delim r.count t).foldl
    (fun acc m => jsReplaceFirst acc m.1 (wrapWithTag r.tag m.2)) t

/-- The paragraph-wrap step of the second pass, for one fragment:
`if (!not_a_paragraph[i] && parsed_lines[i].indexOf('<') == -1)` wrap in a
`p` tag (which escapes), else leave the fragment alone. -/
def pWrapFrag (fr : Frag) : Frag :=
  if !fr.2 && !(fr.1.contains '<') then (wrapWithTag (("p").data) fr.1, fr.2) else fr

/-- The whole second pass for one fragment: paragraph wrap, then the four
`INLINE` rules in table order.  The JS loop applies the inline rules to
every fragment; the `not_a_paragraph` flag only guards the paragraph
wrap. -/
def transformFrag (fr : Frag) : List Char :=
  INLINE.foldl applyInlineRule (pWrapFrag fr).1

/-- `parseMarkdown` on an actual string, past the type guard: split into
lines, run the block-assembly loop from a freshly reset state, run the
second pass over `parsed_lines`, append the document-end
`'</blockquote>'.repeat(blockquoteLevel)` when the level is positive, and
join with the empty glue string. -/
def parseMarkdownStr (raw_markdown : String) : String :=
  if (trim raw_markdown.data).length == 0 then "" else
    let raw_lines := splitLines raw_markdown.data
    let r := runLoop raw_lines raw_lines.length initState [] 0
    let transformed := (r.2).map transformFrag
    let final :=
      if r.1.blockquoteLevel > 0 then
        transformed ++ [repeatL (("</blockquote>").data) r.1.blockquoteLevel]
      else transformed
    String.mk final.flatten

/-- `MarkdownParser.prototype.parseMarkdown` from a freshly reset state.
`none` models a non-string argument: `typeof raw_markdown != 'string'`
short-circuits to `''` exactly like a whitespace-only string. -/
def parseMarkdown : Option String → String
  | none => ""
  | some s => parseMarkdownStr s

/-! ## Helper lemmas -/

/-- Every `BLOCK.*.parse` handler that returns an array returns `i = k`, so
the `result[1] >= k` branch always sets `k` to `k + 1`; the handlers that
return `undefined` fall to the `k++` branch. -/
theorem dispatch_k (raw_lines : List (List Char)) (k line_start_pos : Nat)
    (bt : BlockType) (matched : List Char) (st : PState) (parsed : List Frag) :
    (dispatch raw_lines k line_start_pos bt matched st parsed).2.2 = k + 1 := by
  cases bt <;> simp [dispatch, blockParse]

/-- Every iteration of the main loop advances the line index by exactly one. -/
theorem processLine_k (raw_lines : List (List Char)) (st : PState)
    (parsed : List Frag) (k : Nat) :
    (processLine raw_lines st parsed k).2.2 = k + 1 := by
  simp only [processLine]
  split
  · simp [fenceStep]
  · split
    · rfl
    · split
      · apply dispatch_k
      · split
        · apply dispatch_k
        · apply dispatch_k

/-- Fuel beyond `lines.length - k` is never consumed: one extra unit of fuel
does not change the loop's result.  Together with `processLine_k` this is
the termination argument for the main loop. -/
theorem runLoop_succ (lines : List (List Char)) :
    ∀ (fuel : Nat) (st : PState) (parsed : List Frag) (k : Nat),
      lines.length ≤ k + fuel →
      runLoop lines (fuel + 1) st parsed k = runLoop lines fuel st parsed k := by
  intro fuel
  induction fuel with
  | zero =>
    intro st parsed k h
    have hk : ¬ k < lines.length := by omega
    simp [runLoop, hk]
  | succ n ih =>
    intro st parsed k h
    by_cases hk : k < lines.length
    · conv_lhs => rw [runLoop]
      conv_rhs => rw [runLoop]
      simp only [if_pos hk]
      rw [processLine_k]
      exact ih _ _ (k + 1) (by omega)
    · conv_lhs => rw [runLoop]
      conv_rhs => rw [runLoop]
      simp [hk]

/-- The setext rewrite never changes the number of fragments. -/
theorem rewriteLast_length (tag : List Char) (l : List Frag) :
    (rewriteLast tag l).length = l.length := by
  induction l with
  | nil => rfl
  | cons f rest ih =>
    cases rest with
    | nil => rfl
    | cons g rs => simp [rewriteLast, ih]

/-- A wrapped fragment starts with the character `<`. -/
theorem wrapWithTag_contains_lt (tag text : List Char) :
    (wrapWithTag tag text).contains '<' = true := rfl

/-! ## Claims -/

/-- Claim C1.  The claim states that a non-blockquote line processed while
`blockquoteLevel > 0` (outside a code fence) emits `blockquoteLevel` close
tags *and resets `blockquoteLevel` to 0*.  The code emits the close tags
but never resets the level: after processing the plain line `b` of the
document `"> a\nb"` (the second line, with `blockquoteLevel = 1`), the
close tag has been pushed yet the state still has `blockquoteLevel = 1`,
not 0. -/
theorem c1_exit_close_keeps_level :
    processLine (splitLines (("> a\nb").data))
        { blockquoteLevel := 1, insideCodeContainer := false }
        [((("<blockquote>").data), false), ((("a").data), false)] 1 =
      ({ blockquoteLevel := 1, insideCodeContainer := false },
       [((("<blockquote>").data), false), ((("a").data), false),
        ((("</blockquote>").data), false), ((("b").data), false)], 2) := by
  decide

/-- Claim C2.  The claim states that a fence-interior fragment is never
paragraph-wrapped and never rewritten by the four inline emphasis rules.
The paragraph exemption holds, but the JS inline loop is not guarded by the
`not_a_paragraph` flag: the fence-interior fragment `*a*\n` (flagged
exempt) is rewritten to `<em>a</em>\n` by the single-asterisk rule, and the
document `"```\n*a*\n```"` renders with an `<em>` element inside the
`<pre>` block instead of the escaped raw text. -/
theorem c2_fence_interior_gets_em :
    transformFrag ((("*a*\n").data), true) = ("<em>a</em>\n").data ∧
    parseMarkdown (some ("```\n*a*\n```")) = "<pre><em>a</em>\n</pre>" := by
  constructor
  · decide
  · decide

/-- Claim C3.  The claim states that escaping replaces every occurrence of
`&`, `<`, `>`.  `escapeHTMLChars` uses JS string-pattern `replace`, which
rewrites only the first occurrence of each character: `">>"` escapes to
`"&gt;>"`, `"<<"` to `"&lt;<"`; the paragraph `"a>b>c"` keeps its second
`>` raw, and so does the second `<` of a fence-interior line. -/
theorem c3_escape_only_first :
    escapeHTMLChars ((">>").data) = ("&gt;>").data ∧
    escapeHTMLChars (("<<").data) = ("&lt;<").data ∧
    parseMarkdown (some ("a>b>c")) = "<p>a&gt;b>c</p>" ∧
    parseMarkdown (some ("```\n<<\n```")) = "<pre>&lt;<\n</pre>" := by
  refine ⟨by decide, by decide, by decide, by decide⟩

/-- Claim C4.  The claim states that every parse from a fresh state emits
equally many `<blockquote>` and `</blockquote>` tags.  Because the exit
close (claim C1) does not reset the level, the document-end cleanup emits
the close tags a second time: `"> a\nb"` produces one open tag and two
close tags. -/
theorem c4_blockquote_tags_unbalanced :
    parseMarkdown (some ("> a\nb")) =
      "<blockquote><p>a</p></blockquote><p>b</p></blockquote>" ∧
    countOcc (("<blockquote>").data)
      ((parseMarkdown (some ("> a\nb"))).data) = 1 ∧
    countOcc (("</blockquote>").data)
      ((parseMarkdown (some ("> a\nb"))).data) = 2 := by
  refine ⟨by decide, by decide, by decide⟩

/-- Claim C5.  A setext-heading line (outside a code fence, at blockquote
level 0) emits no new fragment: `processLine` returns `parsed_lines` with
only its last element rewritten in place to `wrapWithTag` of the setext tag
(`h1` for an `=` underline, `h2` for `-`, per `setextTag`), the fragment
count is unchanged, an empty fragment list stays empty, and the example
`"Title\n====="` parses to exactly `"<h1>Title</h1>"`. -/
theorem c5_setext_backpatch (lines : List (List Char)) (st : PState)
    (parsed : List Frag) (k : Nat) (matched : List Char)
    (hc : st.insideCodeContainer = false) (hq : st.blockquoteLevel = 0)
    (hcl : getBlockInfo (trimEnd (lines.getD k [])) 0 =
      (BlockType.setext_heading, matched)) :
    processLine lines st parsed k = (st, rewriteLast (setextTag matched) parsed, k + 1) ∧
    (rewriteLast (setextTag matched) parsed).length = parsed.length ∧
    rewriteLast (setextTag matched) ([] : List Frag) = [] ∧
    parseMarkdown (some ("Title\n=====")) = "<h1>Title</h1>" := by
  refine ⟨?_, rewriteLast_length _ _, rfl, by decide⟩
  obtain ⟨lvl, ic⟩ := st
  replace hq : lvl = 0 := hq
  replace hc : ic = false := hc
  subst hq
  subst hc
  unfold processLine
  simp only [hcl]
  simp only [reduceCtorEq, reduceIte, if_false, if_true]
  simp only [dispatch, blockParse]
  simp

/-- Witness for claim C5 at the document `"Title\n====="`, line index 1. -/
theorem c5_setext_backpatch_witness :
    processLine (splitLines (("Title\n=====").data)) initState
        [((("Title").data), false)] 1 =
      (initState, rewriteLast (setextTag (("=====").data))
        [((("Title").data), false)], 1 + 1) :=
  (c5_setext_backpatch (splitLines (("Title\n=====").data)) initState
    [((("Title").data), false)] 1 (("=====").data) rfl rfl (by decide)).1

/-- Claim C6.  A non-string argument (modelled by `none`) or a string whose
trim is empty short-circuits `parseMarkdown` to the empty string; there is
no separate error result — the function is total into `String` by
construction, and this guard is the only early return. -/
theorem c6_invalid_input_empty (input : Option String)
    (h : input = none ∨ ∃ s, input = some s ∧ trim s.data = []) :
    parseMarkdown input = "" := by
  rcases h with rfl | ⟨s, rfl, hs⟩
  · rfl
  · simp [parseMarkdown, parseMarkdownStr, hs]

/-- Witness for claim C6 at a whitespace-only string. -/
theorem c6_invalid_input_empty_witness :
    parseMarkdown (some ("  \t ")) = "" :=
  c6_invalid_input_empty (some ("  \t "))
    (Or.inr ⟨("  \t "), rfl, by decide⟩)

/-- Claim C7.  Document-end cleanup is asymmetric, observably so: the
unterminated blockquote `"> a"` gets its `</blockquote>` appended, while
the unterminated fence `"```js\ncode"` ends with the fence still open
(`insideCodeContainer` true after the last line) and no `</pre>` anywhere
in the output. -/
theorem c7_end_close_asymmetry :
    parseMarkdown (some ("> a")) = "<blockquote><p>a</p></blockquote>" ∧
    countOcc (("</blockquote>").data) ((parseMarkdown (some ("> a"))).data) = 1 ∧
    parseMarkdown (some ("```js\ncode")) = "<pre class=\"lang-js\">code\n" ∧
    countOcc (("</pre>").data) ((parseMarkdown (some ("```js\ncode"))).data) = 0 ∧
    (runLoop (splitLines (("```js\ncode").data)) 2 initState [] 0).1.insideCodeContainer
      = true := by
  refine ⟨by decide, by decide, by decide, by decide, by decide⟩

/-- Claim C8.  `"**bold**"` parses to a paragraph wrapping
`<strong>bold</strong>`: the double-asterisk rule (first in `INLINE`) has
consumed both `**` pairs before the single-asterisk rule runs, so no `<em>`
appears. -/
theorem c8_strong_before_em :
    parseMarkdown (some ("**bold**")) = "<p><strong>bold</strong></p>" := by
  decide

/-- Claim C9.  The paragraph-wrap step leaves any fragment that already
contains `<` exactly unchanged (no re-wrap, no re-escape), and is
idempotent both per fragment and on whole fragment sequences. -/
theorem c9_paragraph_step_idempotent :
    (∀ fr : Frag, fr.1.contains '<' = true → pWrapFrag fr = fr) ∧
    (∀ fr : Frag, pWrapFrag (pWrapFrag fr) = pWrapFrag fr) ∧
    (∀ frs : List Frag, (frs.map pWrapFrag).map pWrapFrag = frs.map pWrapFrag) := by
  have hwm : ∀ tag text : List Char, '<' ∈ wrapWithTag tag text :=
    fun tag text => List.mem_cons_self _ _
  have h1 : ∀ fr : Frag, fr.1.contains '<' = true → pWrapFrag fr = fr := by
    intro fr h
    have hm : '<' ∈ fr.1 := by simpa using h
    simp [pWrapFrag, hm]
  have h2 : ∀ fr : Frag, pWrapFrag (pWrapFrag fr) = pWrapFrag fr := by
    intro fr
    by_cases hb : fr.2 = true
    · simp [pWrapFrag, hb]
    · by_cases hm : '<' ∈ fr.1
      · simp [pWrapFrag, hm]
      · simp [pWrapFrag, hb, hm, hwm]
  refine ⟨h1, h2, fun frs => ?_⟩
  rw [List.map_map, show pWrapFrag ∘ pWrapFrag = pWrapFrag from funext h2]

/-- Witness for claim C9 at a fragment already containing markup. -/
theorem c9_paragraph_step_idempotent_witness :
    pWrapFrag ((("<x>").data), false) = ((("<x>").data), false) :=
  c9_paragraph_step_idempotent.1 ((("<x>").data), false) (by decide)

/-- Claim C10.  Termination of the main loop: every `processLine` step
returns line index `k + 1` (each branch either increments `k` or gets back
`result[1] = k` from the handler and sets `k` to `result[1] + 1`), so the
loop visits each raw line at most once; consequently any fuel of at least
`lines.length - k` is interchangeable — one more unit of fuel never changes
`runLoop`'s result. -/
theorem c10_loop_index_advances :
    (∀ (lines : List (List Char)) (st : PState) (parsed : List Frag) (k : Nat),
       (processLine lines st parsed k).2.2 = k + 1) ∧
    (∀ (lines : List (List Char)) (fuel : Nat) (st : PState) (parsed : List Frag)
       (k : Nat), lines.length ≤ k + fuel →
       runLoop lines (fuel + 1) st parsed k = runLoop lines fuel st parsed k) :=
  ⟨processLine_k, fun lines fuel st parsed k h => runLoop_succ lines fuel st parsed k h⟩

/-- Witness for claim C10 at the two-line document `"a\nb"`. -/
theorem c10_loop_index_advances_witness :
    (processLine (splitLines (("a\nb").data)) initState [] 0).2.2 = 0 + 1 ∧
    runLoop (splitLines (("a\nb").data)) (2 + 1) initState [] 0 =
      runLoop (splitLines (("a\nb").data)) 2 initState [] 0 :=
  ⟨c10_loop_index_advances.1 (splitLines (("a\nb").data)) initState [] 0,
   c10_loop_index_advances.2 (splitLines (("a\nb").data)) 2 initState [] 0 (by decide)⟩
